import Mathlib

/-!
Verification development for the `tasties_app` recipe application
(`tasties_app/models.py` and `tasties_app/views.py`).

The data model (Category, Recipe, Ingredient, Comment, Rating) and the
operations the specification talks about (`Recipe.edit_recipe`,
`Rating.update_rating`, the `recipes`, `view_recipe` and `create_recipe`
views) are shallowly embedded below.  Django model instances are records;
the database is an explicit `State` record of lists of rows; a Python
method that may mutate its object and then raise is a function into
`PyResult`, which carries the post-call state in both the normal and the
exceptional outcome; `obj.save()` is modelled by copying the in-memory
record into the `stored` component of a world record.
-/

namespace Tasties

/-- The Python runtime values that can reach the validated arguments of
`edit_recipe` and `update_rating`.  Python `bool` is a separate
constructor because `type(x) == int` is an exact type check and
distinguishes `True` from `1`. -/
inductive PyVal where
  | VInt (n : Int)
  | VBool (b : Bool)
  | VStr (s : String)
  | VNone
deriving DecidableEq, Repr

/-- Python `type(x) == int`: true exactly on `int` values, false on
`bool` (whose type is `bool`, not `int`) and everything else. -/
def PyVal.isExactInt : PyVal → Bool
  | .VInt _ => true
  | _ => false

/-- The integer payload of a `PyVal`; only meaningful when
`isExactInt` holds. -/
def PyVal.intVal : PyVal → Int
  | .VInt n => n
  | _ => 0

/-- Outcome of a Python call that may mutate state and then raise:
either a normal return or a raised `ValueError`, in both cases together
with the post-call state of the object graph. -/
inductive PyResult (α : Type) where
  | ok (state : α)
  | raised (msg : String) (state : α)
deriving DecidableEq, Repr

/-- The post-call state, whichever way the call ended. -/
def PyResult.state {α : Type} : PyResult α → α
  | .ok s => s
  | .raised _ s => s

/-- Whether the call returned normally. -/
def PyResult.isOk {α : Type} : PyResult α → Bool
  | .ok _ => true
  | .raised _ _ => false

/-- Row of the `Category` table (`models.py`): `category_name`
(CharField, max_length 16, unique).  `id` is the implicit primary key. -/
structure Category where
  id : Nat
  category_name : String
deriving DecidableEq, Repr

/-- Row of the `Recipe` table (`models.py`).  `author_id` is the user
primary key, `categories` the many-to-many set of category primary
keys, `recipe_picture` the opaque image reference, and
`publication_date` an opaque day number (its default is modelled as
`0`; no claim touches dates). -/
structure Recipe where
  id : Nat
  title : String
  author_id : Nat
  categories : List Nat
  description : String
  directions : String
  publication_date : Nat
  minutes_to_make : Int
  recipe_picture : String
deriving DecidableEq, Repr

/-- Row of the `Ingredient` table (`models.py`): foreign key to a
recipe, decimal amount, measurement unit (one of the seven
`UnitChoices` strings), free-text description. -/
structure Ingredient where
  id : Nat
  recipe_id : Nat
  amount : ℚ
  measurement_unit : String
  description : String
deriving DecidableEq, Repr

/-- Row of the `Comment` table (`models.py`). -/
structure Comment where
  id : Nat
  author_id : Nat
  recipe_id : Nat
  publication_date : Nat
  comment_text : String
deriving DecidableEq, Repr

/-- Row of the `Rating` table (`models.py`): author, recipe, and an
integer `rating` value. -/
structure Rating where
  id : Nat
  author_id : Nat
  recipe_id : Nat
  rating : Int
deriving DecidableEq, Repr

/-- A `Recipe` Python object together with its durable database row:
`mem` is the in-memory instance whose attributes assignments mutate,
`stored` is the row that only `save()` overwrites. -/
structure RecipeWorld where
  mem : Recipe
  stored : Recipe
deriving DecidableEq, Repr

/-- `Recipe.edit_recipe` (`models.py`, lines 43-82), translated
check-for-check: each of title, description and directions is assigned
if its length is at least 1 and otherwise `ValueError("Invalid value")`
is raised; `minutes_to_make` is assigned if `type(...) == int` and the
value is at least 1; the picture is then overwritten unconditionally
and `self.save()` copies the in-memory instance into the stored row. -/
def edit_recipe (w : RecipeWorld) (new_title new_description new_directions : String)
    (new_minutes_to_make : PyVal) (new_recipe_pic : String) : PyResult RecipeWorld :=
  if 1 ≤ new_title.length then
    let w1 : RecipeWorld := { w with mem := { w.mem with title := new_title } }
    if 1 ≤ new_description.length then
      let w2 : RecipeWorld := { w1 with mem := { w1.mem with description := new_description } }
      if 1 ≤ new_directions.length then
        let w3 : RecipeWorld := { w2 with mem := { w2.mem with directions := new_directions } }
        if new_minutes_to_make.isExactInt = true ∧ 1 ≤ new_minutes_to_make.intVal then
          let w4 : RecipeWorld :=
            { w3 with mem := { w3.mem with minutes_to_make := new_minutes_to_make.intVal } }
          let w5 : RecipeWorld := { w4 with mem := { w4.mem with recipe_picture := new_recipe_pic } }
          .ok { w5 with stored := w5.mem }
        else .raised "Invalid value" w3
      else .raised "Invalid value" w2
    else .raised "Invalid value" w1
  else .raised "Invalid value" w

/-- A `Rating` Python object together with its durable database row. -/
structure RatingWorld where
  mem : Rating
  stored : Rating
deriving DecidableEq, Repr

/-- `Rating.update_rating` (`models.py`, lines 128-137):
`if type(new_rate) != int or new_rate > 5 or new_rate < 1:` raise
`ValueError("Invalid value")`, otherwise assign `self.rating = new_rate`.
There is no `save()` call, so the stored row is never touched. -/
def update_rating (w : RatingWorld) (new_rate : PyVal) : PyResult RatingWorld :=
  if new_rate.isExactInt = false then .raised "Invalid value" w
  else if 5 < new_rate.intVal then .raised "Invalid value" w
  else if new_rate.intVal < 1 then .raised "Invalid value" w
  else .ok { w with mem := { w.mem with rating := new_rate.intVal } }

/-- The durable record store: one list of rows per table, plus the next
free primary key (Django assigns ascending primary keys on save). -/
structure State where
  recipes : List Recipe
  ingredients : List Ingredient
  ratings : List Rating
  categories : List Category
  comments : List Comment
  nextId : Nat
deriving DecidableEq, Repr

/-- The rating values attached to recipe `rid`
(`recipe.rating_set` / the reverse foreign key join `rating__rating`). -/
def ratingsOf (s : State) (rid : Nat) : List Int :=
  (s.ratings.filter (fun t => t.recipe_id == rid)).map (fun t => t.rating)

/-- `Avg("rating__rating")` / `aggregate(Avg("rating"))`: the arithmetic
mean of the recipe's rating values, `none` (SQL NULL) when it has no
ratings. -/
def meanRating (s : State) (rid : Nat) : Option ℚ :=
  let vs := ratingsOf s rid
  if vs.isEmpty then none
  else some ((vs.map (fun n => (n : ℚ))).sum / (vs.length : ℚ))

/-- The ordering on annotated averages used by `order_by("-recipe_rating")`:
NULL averages are smallest, so they come last in the descending listing
(the nulls-last rule the spec asks to fix). -/
def ratingLe : Option ℚ → Option ℚ → Bool
  | none, _ => true
  | some _, none => false
  | some a, some b => decide (a ≤ b)

/-- `qs.annotate(recipe_rating=Avg("rating__rating")).order_by("-recipe_rating")`:
sort the rows descending by their annotated average rating. -/
def annotateOrder (s : State) (l : List Recipe) : List Recipe :=
  l.mergeSort (fun a b => ratingLe (meanRating s b.id) (meanRating s a.id))

/-- Modelled from the spec: `Category.get_recipes_by_category` is called
from the `recipes` view (`views.py`, line 42) but no definition of it
appears among the source files (`models.py` declares `Category` with only
`category_name`).  Per the spec it "returns the set of Recipe entities
whose category-tag set contains `category`" and is a pure read. -/
def get_recipes_by_category (s : State) (c : Category) : List Recipe :=
  s.recipes.filter (fun r => r.categories.contains c.id)

/-- What the `recipes` view produces: a rendered listing (the ordered
recipe rows and the category list handed to the template) or a redirect
back to the unfiltered `recipes` page. -/
inductive RecipesResult where
  | render (recipes_list : List Recipe) (categories_list : List Category)
  | redirectRecipes
deriving DecidableEq, Repr

/-- The `recipes` view (`views.py`, lines 28-50).  `categoryParam` is
`request.GET.get("category")`: `none` when the parameter is absent; the
empty string is falsy in Python, so it takes the unfiltered branch.
`"remove_filter"` and an unknown category name both redirect to the
unfiltered listing; a known name renders the filtered, re-sorted rows. -/
def recipesView (s : State) (categoryParam : Option String) : RecipesResult :=
  let recipes_list := annotateOrder s s.recipes
  let categories_list := s.categories
  match categoryParam with
  | none => .render recipes_list categories_list
  | some selected =>
    if selected = "" then .render recipes_list categories_list
    else if selected = "remove_filter" then .redirectRecipes
    else
      match s.categories.find? (fun c => c.category_name == selected) with
      | none => .redirectRecipes
      | some c => .render (annotateOrder s (get_recipes_by_category s c)) categories_list

/-- What the `view_recipe` view produces: a redirect to the listing when
the id does not exist, or the rendered context `{recipe, ingredients,
rating, categories}`. -/
inductive ViewRecipeResult where
  | redirectRecipes
  | render (recipe : Recipe) (ingredients : List Ingredient)
      (rating : Option ℚ) (categories : List Category)
deriving DecidableEq, Repr

/-- The `view_recipe` view (`views.py`, lines 98-106): redirect when no
`Recipe` row has primary key `recipe_id`; otherwise the recipe, its
ingredient set, the average of its ratings (`None` when it has none) and
its category set. -/
def view_recipe (s : State) (recipe_id : Nat) : ViewRecipeResult :=
  match s.recipes.find? (fun r => r.id == recipe_id) with
  | none => .redirectRecipes
  | some recipe =>
      .render recipe
        (s.ingredients.filter (fun i => i.recipe_id == recipe_id))
        (meanRating s recipe_id)
        (s.categories.filter (fun c => recipe.categories.contains c.id))

/-- An unsaved `Recipe` as bound by `CreateRecipeForm` (author from
`request.user`, the form fields, no primary key yet). -/
structure CandidateRecipe where
  title : String
  author_id : Nat
  description : String
  directions : String
  minutes_to_make : Int
  recipe_picture : String
deriving DecidableEq, Repr

/-- An unsaved `Ingredient` as bound by one form of the inline formset
(fields `description`, `measurement_unit`, `amount`). -/
structure CandidateIngredient where
  amount : ℚ
  measurement_unit : String
  description : String
deriving DecidableEq, Repr

/-- The seven `Ingredient.UnitChoices` strings. -/
def unitChoices : List String :=
  ["Whole", "Fluid Ounce", "Tea Spoon", "Ounce", "Cup", "Gram", "Milliliter"]

/-- `recipe_form.is_valid()`: the `Recipe` field validators — title length
1..64 and unique, description length 1..512, directions length 1..65536,
minutes_to_make at least 1. -/
def validCandidateRecipe (s : State) (r : CandidateRecipe) : Prop :=
  1 ≤ r.title.length ∧ r.title.length ≤ 64 ∧
  (∀ x ∈ s.recipes, x.title ≠ r.title) ∧
  1 ≤ r.description.length ∧ r.description.length ≤ 512 ∧
  1 ≤ r.directions.length ∧ r.directions.length ≤ 65536 ∧
  1 ≤ r.minutes_to_make

instance (s : State) (r : CandidateRecipe) : Decidable (validCandidateRecipe s r) := by
  unfold validCandidateRecipe; infer_instance

/-- One ingredient form's validators: amount at least `0.0001`, unit one
of the seven choices, description length 1..64. -/
def validCandidateIngredient (i : CandidateIngredient) : Prop :=
  (1 : ℚ) / 10000 ≤ i.amount ∧
  i.measurement_unit ∈ unitChoices ∧
  1 ≤ i.description.length ∧ i.description.length ≤ 64

instance (i : CandidateIngredient) : Decidable (validCandidateIngredient i) := by
  unfold validCandidateIngredient; infer_instance

/-- `ingredient_formset.is_valid()` with `min_num=1, validate_min=True`:
at least one ingredient, and every submitted ingredient valid. -/
def validIngredientFormSet (ings : List CandidateIngredient) : Prop :=
  ings ≠ [] ∧ ∀ i ∈ ings, validCandidateIngredient i

instance (ings : List CandidateIngredient) : Decidable (validIngredientFormSet ings) := by
  unfold validIngredientFormSet; infer_instance

/-- `recipe_form.save()`: the persisted `Recipe` row, with the next free
primary key and the empty category set of a fresh form save. -/
def persistRecipe (s : State) (r : CandidateRecipe) : Recipe :=
  { id := s.nextId, title := r.title, author_id := r.author_id, categories := [],
    description := r.description, directions := r.directions, publication_date := 0,
    minutes_to_make := r.minutes_to_make, recipe_picture := r.recipe_picture }

/-- `ingredient_formset.save()`: each submitted ingredient becomes a row
with the next primary keys in order, all referencing recipe `rid`. -/
def persistIngredientRows (rid : Nat) (base : Nat) :
    List CandidateIngredient → List Ingredient
  | [] => []
  | i :: rest =>
      { id := base, recipe_id := rid, amount := i.amount,
        measurement_unit := i.measurement_unit, description := i.description }
        :: persistIngredientRows rid (base + 1) rest

/-- The ingredient rows `create_recipe` saves for state `s`. -/
def persistIngredients (s : State) (ings : List CandidateIngredient) : List Ingredient :=
  persistIngredientRows s.nextId (s.nextId + 1) ings

/-- `Rating(author_id=recipe.author_id, recipe_id=recipe, rating=5)` then
`rating.save()`: the seed five-star rating row for the new recipe. -/
def seedRating (s : State) (r : CandidateRecipe) (numIngs : Nat) : Rating :=
  { id := s.nextId + 1 + numIngs, author_id := r.author_id,
    recipe_id := s.nextId, rating := 5 }

/-- Outcome of a POST to `create_recipe`: redirect to the new recipe's
page, or the form re-rendered with recipe-form or formset errors. -/
inductive CreateResult where
  | created (recipe_id : Nat)
  | invalidRecipeForm
  | invalidIngredientFormSet
deriving DecidableEq, Repr

/-- The POST branch of the `create_recipe` view (`views.py`, lines
110-136): if the recipe form is valid and then the ingredient formset is
valid, save the recipe, the ingredients and the seed rating and redirect;
on either validation failure nothing is saved and the form page is
re-rendered with the errors. -/
def create_recipe (s : State) (r : CandidateRecipe) (ings : List CandidateIngredient) :
    CreateResult × State :=
  if validCandidateRecipe s r then
    if validIngredientFormSet ings then
      (.created s.nextId,
       { s with recipes := s.recipes ++ [persistRecipe s r],
                ingredients := s.ingredients ++ persistIngredients s ings,
                ratings := s.ratings ++ [seedRating s r ings.length],
                nextId := s.nextId + 2 + ings.length })
    else (.invalidIngredientFormSet, s)
  else (.invalidRecipeForm, s)

/-! ## The edit contract -/

/-- The four validations of `edit_recipe`: non-empty title, description
and directions, and a minutes value that is an exact `int` of at least 1. -/
def validEditArgs (new_title new_description new_directions : String)
    (new_minutes_to_make : PyVal) : Prop :=
  1 ≤ new_title.length ∧ 1 ≤ new_description.length ∧ 1 ≤ new_directions.length ∧
  new_minutes_to_make.isExactInt = true ∧ 1 ≤ new_minutes_to_make.intVal

instance (t d dir : String) (m : PyVal) : Decidable (validEditArgs t d dir m) := by
  unfold validEditArgs; infer_instance

/-- The record a fully successful edit produces: every validated field
overwritten, the picture overwritten, everything else untouched. -/
def appliedEdit (r : Recipe) (t d dir : String) (m : PyVal) (pic : String) : Recipe :=
  { r with title := t, description := d, directions := dir,
           minutes_to_make := m.intVal, recipe_picture := pic }

theorem edit_recipe_characterization (w : RecipeWorld) (t d dir : String)
    (m : PyVal) (pic : String) :
    (validEditArgs t d dir m ∧
      edit_recipe w t d dir m pic =
        .ok { mem := appliedEdit w.mem t d dir m pic,
              stored := appliedEdit w.mem t d dir m pic }) ∨
    (¬ validEditArgs t d dir m ∧
      ∃ w', edit_recipe w t d dir m pic = .raised "Invalid value" w' ∧
        w'.stored = w.stored) := by
  by_cases h1 : 1 ≤ t.length
  · by_cases h2 : 1 ≤ d.length
    · by_cases h3 : 1 ≤ dir.length
      · by_cases h4 : m.isExactInt = true ∧ 1 ≤ m.intVal
        · left
          refine ⟨⟨h1, h2, h3, h4.1, h4.2⟩, ?_⟩
          simp [edit_recipe, appliedEdit, h1, h2, h3, h4]
        · right
          refine ⟨fun hv => h4 ⟨hv.2.2.2.1, hv.2.2.2.2⟩, ?_⟩
          refine ⟨{ mem := { w.mem with title := t, description := d, directions := dir },
                    stored := w.stored }, ?_, rfl⟩
          simp [edit_recipe, h1, h2, h3, h4]
      · right
        refine ⟨fun hv => h3 hv.2.2.1, ?_⟩
        refine ⟨{ mem := { w.mem with title := t, description := d },
                  stored := w.stored }, ?_, rfl⟩
        simp [edit_recipe, h1, h2, h3]
    · right
      refine ⟨fun hv => h2 hv.2.1, ?_⟩
      refine ⟨{ mem := { w.mem with title := t }, stored := w.stored }, ?_, rfl⟩
      simp [edit_recipe, h1, h2]
  · right
    refine ⟨fun hv => h1 hv.1, ?_⟩
    exact ⟨w, by simp [edit_recipe, h1], rfl⟩

/-- C9: `edit_recipe` calls `save` exactly when all four validations
pass; every failing call leaves the durable stored record unchanged even
though some in-memory fields may already have been assigned. -/
theorem edit_recipe_stores_iff_valid (w : RecipeWorld) (t d dir : String)
    (m : PyVal) (pic : String) :
    ((edit_recipe w t d dir m pic).isOk = true ↔ validEditArgs t d dir m) ∧
    (edit_recipe w t d dir m pic).state.stored =
      (if validEditArgs t d dir m then appliedEdit w.mem t d dir m pic else w.stored) := by
  rcases edit_recipe_characterization w t d dir m pic with ⟨hv, heq⟩ | ⟨hv, w', heq, hst⟩
  · rw [heq]
    simp [PyResult.isOk, PyResult.state, hv]
  · rw [heq]
    simp [PyResult.isOk, PyResult.state, hv, hst]

/-- C1 (amended): an edit call with any invalid validated field raises
`ValueError("Invalid value")` and leaves the durable stored record
unchanged; the in-memory fields checked before the failing one are
already overwritten when the error is raised. -/
theorem edit_recipe_invalid_not_persisted (w : RecipeWorld) (t d dir : String)
    (m : PyVal) (pic : String) (h : ¬ validEditArgs t d dir m) :
    ∃ w', edit_recipe w t d dir m pic = .raised "Invalid value" w' ∧
      w'.stored = w.stored := by
  rcases edit_recipe_characterization w t d dir m pic with ⟨hv, _⟩ | ⟨_, w', heq, hst⟩
  · exact absurd hv h
  · exact ⟨w', heq, hst⟩

/-- A concrete stored recipe used to instantiate the theorems. -/
def sampleRecipe : Recipe :=
  { id := 1, title := "Pancakes", author_id := 7, categories := [],
    description := "Fluffy pancakes", directions := "Mix and fry",
    publication_date := 0, minutes_to_make := 10, recipe_picture := "pancakes.jpg" }

/-- `sampleRecipe` as a loaded object: in-memory copy equals the row. -/
def sampleRecipeWorld : RecipeWorld := { mem := sampleRecipe, stored := sampleRecipe }

/-- Witness for the amended C1 at a concrete input: an empty description
makes the edit fail, and the stored row keeps its old values. -/
theorem edit_recipe_invalid_not_persisted_witness :
    ¬ validEditArgs "NewTitle" "" "Mix and fry" (.VInt 10) ∧
    ∃ w', edit_recipe sampleRecipeWorld "NewTitle" "" "Mix and fry" (.VInt 10) "new.jpg" =
        .raised "Invalid value" w' ∧ w'.stored = sampleRecipeWorld.stored :=
  ⟨by decide,
   edit_recipe_invalid_not_persisted sampleRecipeWorld "NewTitle" "" "Mix and fry"
     (.VInt 10) "new.jpg" (by decide)⟩

/-- Counterexample to C1 as stated: the failing edit below (empty new
description) raises, yet the recipe object's `title` field has already
been overwritten, so not ALL of the recipe's fields are left unchanged. -/
theorem edit_recipe_atomicity_counterexample :
    (edit_recipe sampleRecipeWorld "NewTitle" "" "Mix and fry" (.VInt 10) "new.jpg").isOk
        = false ∧
    (edit_recipe sampleRecipeWorld "NewTitle" "" "Mix and fry" (.VInt 10) "new.jpg").state.mem.title
        ≠ sampleRecipeWorld.mem.title := by
  decide

/-! ## The rating update contract -/

/-- A valid new rate: an exact `int` between 1 and 5. -/
def validRate (v : PyVal) : Prop :=
  v.isExactInt = true ∧ 1 ≤ v.intVal ∧ v.intVal ≤ 5

instance (v : PyVal) : Decidable (validRate v) := by
  unfold validRate; infer_instance

/-- C5: `update_rating` raises `ValueError("Invalid value")` exactly when
`new_rate` is not an exact integer in `[1, 5]`, leaving the object
untouched; on success it replaces the in-memory value; and in neither
case does it write the stored row (there is no `save()`). -/
theorem update_rating_spec (w : RatingWorld) (v : PyVal) :
    update_rating w v =
      (if validRate v then
        PyResult.ok { w with mem := { w.mem with rating := v.intVal } }
       else .raised "Invalid value" w) ∧
    (update_rating w v).state.stored = w.stored := by
  have hA : update_rating w v =
      (if validRate v then
        PyResult.ok { w with mem := { w.mem with rating := v.intVal } }
       else .raised "Invalid value" w) := by
    cases v with
    | VInt n =>
        unfold update_rating validRate
        simp only [PyVal.isExactInt, PyVal.intVal]
        split_ifs <;> simp_all <;> omega
    | VBool b => rw [if_neg (by rintro ⟨hc, -⟩; cases hc)]; rfl
    | VStr s => rw [if_neg (by rintro ⟨hc, -⟩; cases hc)]; rfl
    | VNone => rw [if_neg (by rintro ⟨hc, -⟩; cases hc)]; rfl
  refine ⟨hA, ?_⟩
  rw [hA]
  by_cases hv : validRate v
  · rw [if_pos hv]; rfl
  · rw [if_neg hv]; rfl

/-- C10: `type(new_rate) != int` is an exact type check, so both Python
booleans are rejected with `ValueError` and the object and stored row are
left unchanged, although `True` is numerically 1. -/
theorem update_rating_rejects_bool (w : RatingWorld) (b : Bool) :
    update_rating w (.VBool b) = .raised "Invalid value" w := by
  cases b <;> rfl

/-! ## Category filtering and the listing -/

/-- C2: `get_recipes_by_category` returns exactly the recipes whose
category-tag set contains the category, and no others; it is a pure read
(it is a function of the store and returns only the row list). -/
theorem get_recipes_by_category_spec (s : State) (c : Category) (r : Recipe) :
    r ∈ get_recipes_by_category s c ↔ r ∈ s.recipes ∧ c.id ∈ r.categories := by
  simp [get_recipes_by_category, List.mem_filter]

theorem ratingLe_trans (a b c : Option ℚ) (hab : ratingLe a b = true)
    (hbc : ratingLe b c = true) : ratingLe a c = true := by
  cases a <;> cases b <;> cases c <;> simp_all [ratingLe]
  exact le_trans hab hbc

theorem ratingLe_total (a b : Option ℚ) : (ratingLe a b || ratingLe b a) = true := by
  cases a <;> cases b <;> simp_all [ratingLe]
  exact le_total _ _

/-- The ordered sequence the unfiltered listing renders. -/
def list_recipes (s : State) : List Recipe := annotateOrder s s.recipes

/-- C6: the listing returns the recipes sorted by descending mean rating:
whenever A appears before B and both have a mean, mean(A) ≥ mean(B). -/
theorem list_recipes_sorted_desc (s : State) :
    recipesView s none = .render (list_recipes s) s.categories ∧
    (list_recipes s).Pairwise (fun a b => ∀ x y,
      meanRating s a.id = some x → meanRating s b.id = some y → y ≤ x) := by
  refine ⟨rfl, ?_⟩
  have h := @List.sorted_mergeSort Recipe
      (fun a b : Recipe => ratingLe (meanRating s b.id) (meanRating s a.id))
      (fun a b c hab hbc => ratingLe_trans _ _ _ hbc hab)
      (fun a b => ratingLe_total (meanRating s b.id) (meanRating s a.id))
      s.recipes
  refine h.imp ?_
  intro a b hab x y hx hy
  rw [hx, hy] at hab
  simpa [ratingLe] using hab

/-- C7: filtering by a category name that names no `Category` row
redirects to the unfiltered listing (the "no such category" signal), for
every non-empty name. -/
theorem recipes_unknown_category_redirects (s : State) (name : String)
    (hne : name ≠ "")
    (hmiss : ∀ c ∈ s.categories, c.category_name ≠ name) :
    recipesView s (some name) = .redirectRecipes := by
  unfold recipesView
  dsimp only
  rw [if_neg hne]
  by_cases hrf : name = "remove_filter"
  · rw [if_pos hrf]
  · rw [if_neg hrf]
    have hfind : s.categories.find? (fun c => c.category_name == name) = none :=
      List.find?_eq_none.mpr (fun c hc => by simp [hmiss c hc])
    rw [hfind]

/-- A concrete category row used to instantiate the theorems. -/
def sampleCategory : Category := { id := 3, category_name := "Dessert" }

/-- A concrete store with one recipe and one category. -/
def sampleState : State :=
  { recipes := [sampleRecipe], ingredients := [], ratings := [],
    categories := [sampleCategory], comments := [], nextId := 10 }

/-- Witness for C7 at a concrete input: no category is named "Pasta", so
the filtered listing redirects. -/
theorem recipes_unknown_category_redirects_witness :
    "Pasta" ≠ "" ∧ (∀ c ∈ sampleState.categories, c.category_name ≠ "Pasta") ∧
    recipesView sampleState (some "Pasta") = .redirectRecipes :=
  ⟨by decide, by decide,
   recipes_unknown_category_redirects sampleState "Pasta" (by decide) (by decide)⟩

/-- `meanRating` is NULL exactly on a recipe with no ratings. -/
theorem meanRating_eq_none_iff (s : State) (rid : Nat) :
    meanRating s rid = none ↔ ratingsOf s rid = [] := by
  unfold meanRating
  by_cases h : (ratingsOf s rid).isEmpty <;> simp_all [List.isEmpty_iff]

/-- C8: the single-recipe view redirects exactly when no recipe row has
the requested id; otherwise it renders that recipe with exactly its
ingredients, the mean of its ratings (NULL exactly when it has none) and
exactly its categories.  It is a pure read of the store. -/
theorem view_recipe_spec (s : State) (rid : Nat) :
    (view_recipe s rid = .redirectRecipes ↔ ∀ r ∈ s.recipes, r.id ≠ rid) ∧
    (∀ rec ings rat cats, view_recipe s rid = .render rec ings rat cats →
      rec ∈ s.recipes ∧ rec.id = rid ∧
      (∀ i, i ∈ ings ↔ i ∈ s.ingredients ∧ i.recipe_id = rid) ∧
      rat = meanRating s rid ∧
      (rat = none ↔ ratingsOf s rid = []) ∧
      (∀ c, c ∈ cats ↔ c ∈ s.categories ∧ c.id ∈ rec.categories)) := by
  cases hf : s.recipes.find? (fun r => r.id == rid) with
  | none =>
      constructor
      · simp only [view_recipe, hf, true_iff]
        intro r hr hid
        have := List.find?_eq_none.mp hf r hr
        simp [hid] at this
      · intro rec ings rat cats h
        simp [view_recipe, hf] at h
  | some rec0 =>
      have hmem := List.mem_of_find?_eq_some hf
      have hid : rec0.id = rid := by simpa using List.find?_some hf
      constructor
      · constructor
        · intro h; simp [view_recipe, hf] at h
        · intro hall; exact absurd hid (hall rec0 hmem)
      · intro rec ings rat cats h
        simp only [view_recipe, hf, ViewRecipeResult.render.injEq] at h
        obtain ⟨hrec, hings, hrat, hcats⟩ := h
        subst hrec
        refine ⟨hmem, hid, ?_, hrat.symm, ?_, ?_⟩
        · intro i
          rw [← hings]
          simp [List.mem_filter]
        · rw [← hrat]
          exact meanRating_eq_none_iff s rid
        · intro c
          rw [← hcats]
          simp [List.mem_filter]

/-! ## The creation workflow -/

theorem persistIngredientRows_recipe_id (rid base : Nat)
    (l : List CandidateIngredient) :
    ∀ i ∈ persistIngredientRows rid base l, i.recipe_id = rid := by
  induction l generalizing base with
  | nil => intro i h; cases h
  | cons a rest ih =>
      intro i h
      rcases List.mem_cons.mp h with h | h
      · rw [h]
      · exact ih (base + 1) i h

theorem persistIngredientRows_payload (rid base : Nat)
    (l : List CandidateIngredient) :
    (persistIngredientRows rid base l).map
      (fun i => CandidateIngredient.mk i.amount i.measurement_unit i.description) = l := by
  induction l generalizing base with
  | nil => rfl
  | cons a rest ih => simp [persistIngredientRows, ih]

/-- C3: a creation request with a valid recipe and a non-empty collection
of valid ingredients persists the recipe, every submitted ingredient
(each referencing the persisted recipe), and exactly one seed rating of
value 5 authored by the recipe's author. -/
theorem create_recipe_success (s : State) (r : CandidateRecipe)
    (ings : List CandidateIngredient)
    (hr : validCandidateRecipe s r)
    (hi : validIngredientFormSet ings)
    (hfresh : ∀ rt ∈ s.ratings, rt.recipe_id < s.nextId) :
    (create_recipe s r ings).1 = .created s.nextId ∧
    (create_recipe s r ings).2.recipes = s.recipes ++ [persistRecipe s r] ∧
    (create_recipe s r ings).2.ingredients = s.ingredients ++ persistIngredients s ings ∧
    (persistIngredients s ings).length = ings.length ∧
    (∀ i ∈ persistIngredients s ings, i.recipe_id = (persistRecipe s r).id) ∧
    (persistIngredients s ings).map
      (fun i => CandidateIngredient.mk i.amount i.measurement_unit i.description) = ings ∧
    (create_recipe s r ings).2.ratings = s.ratings ++ [seedRating s r ings.length] ∧
    (seedRating s r ings.length).rating = 5 ∧
    (seedRating s r ings.length).author_id = r.author_id ∧
    (seedRating s r ings.length).recipe_id = (persistRecipe s r).id ∧
    (create_recipe s r ings).2.ratings.filter
        (fun rt => rt.recipe_id == (persistRecipe s r).id)
      = [seedRating s r ings.length] := by
  have hlen : (persistIngredients s ings).length = ings.length := by
    have hp := persistIngredientRows_payload s.nextId (s.nextId + 1) ings
    unfold persistIngredients
    calc (persistIngredientRows s.nextId (s.nextId + 1) ings).length
        = ((persistIngredientRows s.nextId (s.nextId + 1) ings).map
            (fun i => CandidateIngredient.mk i.amount i.measurement_unit i.description)).length := by
          rw [List.length_map]
      _ = ings.length := by rw [hp]
  have hfilter : (s.ratings ++ [seedRating s r ings.length]).filter
      (fun rt => rt.recipe_id == s.nextId) = [seedRating s r ings.length] := by
    rw [List.filter_append]
    have hold : s.ratings.filter (fun rt => rt.recipe_id == s.nextId) = [] := by
      rw [List.filter_eq_nil_iff]
      intro rt hrt
      have := hfresh rt hrt
      simp only [beq_iff_eq]
      omega
    rw [hold]
    simp [seedRating]
  unfold create_recipe
  rw [if_pos hr, if_pos hi]
  exact ⟨rfl, rfl, rfl, hlen,
    persistIngredientRows_recipe_id s.nextId (s.nextId + 1) ings,
    persistIngredientRows_payload s.nextId (s.nextId + 1) ings,
    rfl, rfl, rfl, rfl, hfilter⟩

/-- C4: a creation request with zero ingredients or any invalid
ingredient fails: the store is unchanged (no recipe, no ingredients, no
rating) and no redirect to a created recipe happens. -/
theorem create_recipe_invalid_ingredients (s : State) (r : CandidateRecipe)
    (ings : List CandidateIngredient)
    (h : ings = [] ∨ ∃ i ∈ ings, ¬ validCandidateIngredient i) :
    (create_recipe s r ings).2 = s ∧
    ∀ rid, (create_recipe s r ings).1 ≠ .created rid := by
  have hni : ¬ validIngredientFormSet ings := by
    rcases h with h | ⟨i, hi, hbad⟩
    · exact fun hv => hv.1 h
    · exact fun hv => hbad (hv.2 i hi)
  unfold create_recipe
  by_cases hr : validCandidateRecipe s r
  · rw [if_pos hr, if_neg hni]
    exact ⟨rfl, fun rid hc => by cases hc⟩
  · rw [if_neg hr]
    exact ⟨rfl, fun rid hc => by cases hc⟩

/-- A concrete valid unsaved recipe. -/
def sampleCandidateRecipe : CandidateRecipe :=
  { title := "Waffles", author_id := 7, description := "Crispy waffles",
    directions := "Bake in the iron", minutes_to_make := 20,
    recipe_picture := "waffles.jpg" }

/-- Two concrete valid unsaved ingredients. -/
def sampleIngredients : List CandidateIngredient :=
  [{ amount := 2, measurement_unit := "Cup", description := "flour" },
   { amount := 1, measurement_unit := "Whole", description := "egg" }]

theorem sampleIngredients_valid : validIngredientFormSet sampleIngredients := by
  constructor
  · simp [sampleIngredients]
  · intro i hi
    rcases List.mem_cons.mp hi with h | h
    · rw [h]
      refine ⟨by norm_num, by decide, by decide, by decide⟩
    · rcases List.mem_cons.mp h with h | h
      · rw [h]
        refine ⟨by norm_num, by decide, by decide, by decide⟩
      · cases h

/-- Witness for C3 at a concrete input: a valid recipe and two valid
ingredients produce the created-redirect. -/
theorem create_recipe_success_witness :
    validCandidateRecipe sampleState sampleCandidateRecipe ∧
    validIngredientFormSet sampleIngredients ∧
    (∀ rt ∈ sampleState.ratings, rt.recipe_id < sampleState.nextId) ∧
    (create_recipe sampleState sampleCandidateRecipe sampleIngredients).1 =
      .created sampleState.nextId :=
  ⟨by decide, sampleIngredients_valid, by decide,
   (create_recipe_success sampleState sampleCandidateRecipe sampleIngredients
     (by decide) sampleIngredients_valid (by decide)).1⟩

/-- Witness for C4 at a concrete input: zero ingredients leave the store
unchanged. -/
theorem create_recipe_invalid_ingredients_witness :
    (([] : List CandidateIngredient) = [] ∨
      ∃ i ∈ ([] : List CandidateIngredient), ¬ validCandidateIngredient i) ∧
    (create_recipe sampleState sampleCandidateRecipe []).2 = sampleState :=
  ⟨Or.inl rfl,
   (create_recipe_invalid_ingredients sampleState sampleCandidateRecipe []
     (Or.inl rfl)).1⟩

end Tasties
